import Mathlib

/-!
Shallow embedding of the record-store exercises of this repository:
the generic predicate filter (`aplicar_validador`, bloque1/ejercicio_4),
the JSON-backed inventory manager (bloque3/ejercicio_13), the JSON-backed
library manager (bloque3/ejercicio_15) and the CSV column analyzer
(bloque3/ejercicio_12).

Python numbers are modelled as `ℚ` (floats) and `ℤ` (ints); Python
exceptions are modelled by the `PyErr` inductive, and fallible functions
return `Except PyErr`.  The backing JSON file is modelled by `FileState`
(missing / unparsable / parsed JSON value); operations that write the file
are state transformers over `FileState`.  Exception messages reproduce the
source texts except that Python repr quotes around interpolated values are
omitted.
-/

namespace Spec2Proof

/-- Python exceptions raised by the translated code: `ValueError`,
`TypeError`, `KeyError` and (for defensive dead branches of list indexing)
`IndexError`, each carrying its message. -/
inductive PyErr where
  | valueError (msg : String)
  | typeError (msg : String)
  | keyError (msg : String)
  | indexError (msg : String)
deriving DecidableEq, Repr

instance {ε α : Type} [DecidableEq ε] [DecidableEq α] :
    DecidableEq (Except ε α)
  | .ok a, .ok b =>
    if h : a = b then .isTrue (by rw [h]) else .isFalse (by simp [h])
  | .ok _, .error _ => .isFalse (by simp)
  | .error _, .ok _ => .isFalse (by simp)
  | .error e, .error f =>
    if h : e = f then .isTrue (by rw [h]) else .isFalse (by simp [h])

/-- Whether an `Except` result is a raised `ValueError` (the realization of
the spec taxonomy kind `ValidationError` throughout this code base). -/
def isValueError {α : Type} : Except PyErr α → Bool
  | .error (.valueError _) => true
  | _ => false

/-- Whether an `Except` result is a raised `KeyError`. -/
def isKeyError {α : Type} : Except PyErr α → Bool
  | .error (.keyError _) => true
  | _ => false

/-- Whether an `Except` result succeeded. -/
def okB {α : Type} : Except PyErr α → Bool
  | .ok _ => true
  | _ => false

/-!  Python `str.split()` (split on whitespace runs, dropping empty tokens)
and `" ".join`, modelled on `List Char`. -/

/-- Single pass of `s.split()`: `cur` holds the characters of the word in
progress, most recent first; a whitespace character closes it. -/
def wordsAux : List Char → List Char → List (List Char)
  | [], cur => if cur = [] then [] else [cur.reverse]
  | c :: rest, cur =>
    if c.isWhitespace then
      if cur = [] then wordsAux rest []
      else cur.reverse :: wordsAux rest []
    else wordsAux rest (c :: cur)

/-- Python `s.split()`: maximal runs of non-whitespace characters. -/
def words (cs : List Char) : List (List Char) :=
  wordsAux cs []

/-- Python `" ".join(ws)`. -/
def unwords : List (List Char) → List Char
  | [] => []
  | [w] => w
  | w :: v :: ws => w ++ ' ' :: unwords (v :: ws)

/-- Python `" ".join(s.split())`: collapse internal whitespace runs to a
single space and trim the edges. -/
def collapse (s : String) : String :=
  String.mk (unwords (words s.toList))

/-- Python `s.lower()` (ASCII range, which covers every identifier the
exercises use). -/
def lowerStr (s : String) : String :=
  String.mk (s.toList.map Char.toLower)

/-- Python `s.strip()`: drop whitespace from both edges. -/
def stripStr (s : String) : String :=
  String.mk
    (((s.toList.dropWhile Char.isWhitespace).reverse.dropWhile
      Char.isWhitespace).reverse)

/-!  A model of the values `json.load` produces.  `num` merges Python ints
and floats into `ℚ`; the coercions below truncate where Python `int()`
would. -/

/-- Parsed JSON values.  Object fields keep the textual order; a duplicated
key is resolved (last occurrence wins) at lookup time, as `json.load`
resolves it while building the dict. -/
inductive Json where
  | null
  | bool (b : Bool)
  | num (q : ℚ)
  | str (s : String)
  | arr (items : List Json)
  | obj (fields : List (String × Json))

/-- Python dict lookup on a parsed JSON object: the last occurrence of a
duplicated key wins. -/
def lookupLast (fields : List (String × Json)) (k : String) : Option Json :=
  fields.reverse.lookup k

/-- Python `str()` of a parsed JSON value.  Array/object renderings are
abbreviated stand-ins for the Python repr (always non-empty, so the
normalizers behave identically); a non-integral number renders as a
fraction where Python would print a decimal — only the stored text of such
freak identifiers differs, never whether a record validates. -/
def pyStr : Json → String
  | .null => "None"
  | .bool true => "True"
  | .bool false => "False"
  | .num q => if q.den = 1 then toString q.num else toString q
  | .str s => s
  | .arr _ => "[...]"
  | .obj _ => "\x7b...\x7d"

/-- Numeric value of a list of decimal digit characters. -/
def digitsVal (cs : List Char) : ℕ :=
  cs.foldl (fun a c => 10 * a + (c.toNat - 48)) 0

/-- Python `float(s)` on a string: optional sign, then digits with an
optional decimal point and an optional exponent, whitespace-stripped.
(`inf`/`nan` spellings and digit underscores are not modelled; no exercise
feeds them in.) -/
def parseFloat? (s : String) : Option ℚ :=
  let cs := ((s.toList.dropWhile Char.isWhitespace).reverse.dropWhile
    Char.isWhitespace).reverse
  let (sign, cs1) : ℚ × List Char :=
    match cs with
    | '+' :: r => (1, r)
    | '-' :: r => (-1, r)
    | r => (1, r)
  let ip := cs1.takeWhile Char.isDigit
  let rest1 := cs1.dropWhile Char.isDigit
  let mantissa? : Option (ℚ × List Char) :=
    match rest1 with
    | '.' :: r2 =>
      let fp := r2.takeWhile Char.isDigit
      let rest2 := r2.dropWhile Char.isDigit
      if ip = [] ∧ fp = [] then none
      else some ((digitsVal ip : ℚ) + (digitsVal fp : ℚ) / (10 : ℚ) ^ fp.length, rest2)
    | r2 => if ip = [] then none else some ((digitsVal ip : ℚ), r2)
  match mantissa? with
  | none => none
  | some (m, rest2) =>
    match rest2 with
    | [] => some (sign * m)
    | e :: r3 =>
      if e = 'e' ∨ e = 'E' then
        let (esign, r4) : ℤ × List Char :=
          match r3 with
          | '+' :: r => (1, r)
          | '-' :: r => (-1, r)
          | r => (1, r)
        if r4 ≠ [] ∧ r4.all Char.isDigit then
          some (sign * m * (10 : ℚ) ^ (esign * (digitsVal r4 : ℤ)))
        else none
      else none

/-- Python `int(s)` on a string: optional sign then decimal digits only,
whitespace-stripped. -/
def parseInt? (s : String) : Option ℤ :=
  let cs := ((s.toList.dropWhile Char.isWhitespace).reverse.dropWhile
    Char.isWhitespace).reverse
  let (sign, cs1) : ℤ × List Char :=
    match cs with
    | '+' :: r => (1, r)
    | '-' :: r => (-1, r)
    | r => (1, r)
  if cs1 ≠ [] ∧ cs1.all Char.isDigit then some (sign * (digitsVal cs1 : ℤ))
  else none

/-- Truncation toward zero, the behaviour of Python `int()` on a float. -/
def ratTrunc (q : ℚ) : ℤ :=
  if 0 ≤ q then ⌊q⌋ else ⌈q⌉

/-- Python `float(x)` on a parsed JSON value; `Except Unit` because each
caller wraps the failure in its own `TypeError`. -/
def pyFloat : Json → Except Unit ℚ
  | .num q => .ok q
  | .bool b => .ok (if b then 1 else 0)
  | .str s =>
    match parseFloat? s with
    | some q => .ok q
    | none => .error ()
  | _ => .error ()

/-- Python `int(x)` on a parsed JSON value (truncating floats). -/
def pyInt : Json → Except Unit ℤ
  | .num q => .ok (ratTrunc q)
  | .bool b => .ok (if b then 1 else 0)
  | .str s =>
    match parseInt? s with
    | some z => .ok z
    | none => .error ()
  | _ => .error ()

/-- State of a store's backing file: absent, present but not parseable as
JSON, or present with a parsed JSON value. -/
inductive FileState where
  | missing
  | corrupt
  | jsonFile (j : Json)

/-- Sequential validation of a Python list comprehension
`[f(x) for x in xs]`: the first raised exception aborts the whole
comprehension. -/
def normalizarLista {α β : Type} (f : α → Except PyErr β) :
    List α → Except PyErr (List β)
  | [] => .ok []
  | x :: xs =>
    match f x with
    | .error e => .error e
    | .ok y =>
      match normalizarLista f xs with
      | .error e => .error e
      | .ok ys => .ok (y :: ys)

/-- The load loop `for item: try append(f(item)) except: continue` —
invalid elements are silently dropped, valid ones kept in order. -/
def cargarLista {α : Type} (f : Json → Except PyErr α) :
    List Json → List α
  | [] => []
  | x :: xs =>
    match f x with
    | .ok y => y :: cargarLista f xs
    | .error _ => cargarLista f xs

/-!  ## Inventory manager (bloque3/ejercicio_13_gestor_inventario_json.py) -/

/-- An in-memory inventory record: the dict
`\x7b"nombre": str, "precio": float, "stock": int\x7d`. -/
structure Producto where
  nombre : String
  precio : ℚ
  stock : ℤ
deriving DecidableEq, Repr

/-- `_normalizar_nombre`: collapse whitespace; raise `ValueError` when the
result is empty. -/
def normalizarNombre (nombre : String) : Except PyErr String :=
  let limpio := collapse nombre
  if limpio = "" then
    .error (.valueError "El nombre no puede estar vacío.")
  else .ok limpio

/-- The JSON object `json.dump` writes for an in-memory product dict. -/
def productoToJson (p : Producto) : Json :=
  .obj [("nombre", .str p.nombre), ("precio", .num p.precio),
        ("stock", .num (p.stock : ℚ))]

/-- `_validar_producto_dict` applied to a parsed JSON element: requires a
dict with keys nombre/precio/stock, coerces with `str`/`float`/`int`,
rejects an empty name and negative price/stock, and returns the normalized
copy. -/
def validarProductoJson (j : Json) : Except PyErr Producto :=
  match j with
  | .obj fields =>
    if (lookupLast fields "nombre").isNone then
      .error (.typeError "Falta la clave obligatoria: nombre")
    else if (lookupLast fields "precio").isNone then
      .error (.typeError "Falta la clave obligatoria: precio")
    else if (lookupLast fields "stock").isNone then
      .error (.typeError "Falta la clave obligatoria: stock")
    else
      match normalizarNombre (pyStr ((lookupLast fields "nombre").getD .null)) with
      | .error e => .error e
      | .ok nombre =>
        match pyFloat ((lookupLast fields "precio").getD .null) with
        | .error _ => .error (.typeError "precio debe ser numérico.")
        | .ok precio =>
          match pyInt ((lookupLast fields "stock").getD .null) with
          | .error _ => .error (.typeError "stock debe ser entero.")
          | .ok stock =>
            if precio < 0 then
              .error (.valueError "El precio no puede ser negativo.")
            else if stock < 0 then
              .error (.valueError "El stock no puede ser negativo.")
            else .ok ⟨nombre, precio, stock⟩
  | _ => .error (.typeError "Cada producto debe ser un diccionario.")

/-- `_validar_producto_dict` on an in-memory product (the dict with exactly
the three expected keys). -/
def validarProducto (p : Producto) : Except PyErr Producto :=
  validarProductoJson (productoToJson p)

/-- `cargar_inventario`: missing file or parse failure or non-list content
yields `[]`; list elements are validated individually, invalid ones
silently dropped. -/
def cargarInventario (fs : FileState) : List Producto :=
  match fs with
  | .missing => []
  | .corrupt => []
  | .jsonFile j =>
    match j with
    | .arr items => cargarLista validarProductoJson items
    | _ => []

/-- `guardar_inventario` as a state transformer over the backing file:
validate every record (first failure raises and nothing is written), then
overwrite the file with the JSON array of the normalized records. -/
def guardarInventarioSt (inventario : List Producto) (fs : FileState) :
    Except PyErr Unit × FileState :=
  match normalizarLista validarProducto inventario with
  | .error e => (.error e, fs)
  | .ok normalizados =>
    (.ok (), .jsonFile (.arr (normalizados.map productoToJson)))

/-- `_buscar_indice`: index of the product whose name matches
case-insensitively, after normalizing the searched name (which raises on an
empty name). -/
def buscarIndice (inventario : List Producto) (nombreObjetivo : String) :
    Except PyErr (Option ℕ) :=
  match normalizarNombre nombreObjetivo with
  | .error e => .error e
  | .ok limpio =>
    let objetivo := lowerStr limpio
    .ok (inventario.findIdx? (fun prod => lowerStr prod.nombre == objetivo))

/-- `agregar_producto` as a state transformer: validate the arguments,
append a new record or top-up an existing one (case-insensitive match:
price overwritten, stock added), then persist. -/
def agregarProductoSt (inventario : List Producto) (nombre : String)
    (precio : ℚ) (stock : ℤ) (fs : FileState) :
    Except PyErr Producto × List Producto × FileState :=
  match normalizarNombre nombre with
  | .error e => (.error e, inventario, fs)
  | .ok nombreOk =>
    if precio < 0 then
      (.error (.valueError "El precio no puede ser negativo."), inventario, fs)
    else if stock < 0 then
      (.error (.valueError "El stock no puede ser negativo."), inventario, fs)
    else
      match buscarIndice inventario nombreOk with
      | .error e => (.error e, inventario, fs)
      | .ok none =>
        let producto : Producto := ⟨nombreOk, precio, stock⟩
        let inv := inventario ++ [producto]
        match guardarInventarioSt inv fs with
        | (.error e, fsNew) => (.error e, inv, fsNew)
        | (.ok _, fsNew) => (.ok producto, inv, fsNew)
      | .ok (some indice) =>
        match inventario.get? indice with
        | none =>
          -- dead branch: `_buscar_indice` always returns a valid index;
          -- Python indexing would raise here
          (.error (.indexError "list index out of range"), inventario, fs)
        | some producto =>
          let productoNew : Producto :=
            { producto with precio := precio, stock := producto.stock + stock }
          let inv := inventario.set indice productoNew
          match guardarInventarioSt inv fs with
          | (.error e, fsNew) => (.error e, inv, fsNew)
          | (.ok _, fsNew) => (.ok productoNew, inv, fsNew)

/-- `vender_producto` as a state transformer: reject a non-positive
quantity, a missing product, and an insufficient stock; otherwise decrement
the stock and persist. -/
def venderProductoSt (inventario : List Producto) (nombre : String)
    (cantidad : ℤ) (fs : FileState) :
    Except PyErr Producto × List Producto × FileState :=
  if cantidad ≤ 0 then
    (.error (.valueError "La cantidad a vender debe ser mayor que 0."),
     inventario, fs)
  else
    match buscarIndice inventario nombre with
    | .error e => (.error e, inventario, fs)
    | .ok none =>
      (.error (.keyError ("No existe el producto: " ++ nombre)), inventario, fs)
    | .ok (some indice) =>
      match inventario.get? indice with
      | none =>
        (.error (.indexError "list index out of range"), inventario, fs)
      | some producto =>
        let stockActual := producto.stock
        if stockActual < cantidad then
          (.error (.valueError "Stock insuficiente para la venta."),
           inventario, fs)
        else
          let productoNew : Producto := { producto with stock := stockActual - cantidad }
          let inv := inventario.set indice productoNew
          match guardarInventarioSt inv fs with
          | (.error e, fsNew) => (.error e, inv, fsNew)
          | (.ok _, fsNew) => (.ok productoNew, inv, fsNew)

/-!  ## Library manager (bloque3/ejercicio_15_biblioteca_json.py) -/

/-- An in-memory library record: the dict
`\x7b"libro_id": str, "titulo": str, "prestado_a": str | None\x7d`. -/
structure Libro where
  libroId : String
  titulo : String
  prestadoA : Option String
deriving DecidableEq, Repr

/-- `_normalizar_id`: collapse whitespace; raise `ValueError` when empty. -/
def normalizarId (texto : String) : Except PyErr String :=
  let limpio := collapse texto
  if limpio = "" then
    .error (.valueError "El id del libro no puede estar vacío.")
  else .ok limpio

/-- `_normalizar_nombre` (library variant, for the borrower's name). -/
def normalizarAprendiz (texto : String) : Except PyErr String :=
  let limpio := collapse texto
  if limpio = "" then
    .error (.valueError "El nombre del aprendiz no puede estar vacío.")
  else .ok limpio

/-- `_normalizar_titulo`: collapse whitespace; raise `ValueError` when
empty. -/
def normalizarTitulo (texto : String) : Except PyErr String :=
  let limpio := collapse texto
  if limpio = "" then
    .error (.valueError "El título no puede estar vacío.")
  else .ok limpio

/-- The JSON object `json.dump` writes for an in-memory book dict. -/
def libroToJson (l : Libro) : Json :=
  .obj [("libro_id", .str l.libroId), ("titulo", .str l.titulo),
        ("prestado_a", match l.prestadoA with
          | none => .null
          | some s => .str s)]

/-- `_validar_libro_dict` applied to a parsed JSON element. -/
def validarLibroJson (j : Json) : Except PyErr Libro :=
  match j with
  | .obj fields =>
    if (lookupLast fields "libro_id").isNone then
      .error (.typeError "Falta la clave obligatoria: libro_id")
    else if (lookupLast fields "titulo").isNone then
      .error (.typeError "Falta la clave obligatoria: titulo")
    else if (lookupLast fields "prestado_a").isNone then
      .error (.typeError "Falta la clave obligatoria: prestado_a")
    else
      match normalizarId (pyStr ((lookupLast fields "libro_id").getD .null)) with
      | .error e => .error e
      | .ok libroId =>
        match normalizarTitulo (pyStr ((lookupLast fields "titulo").getD .null)) with
        | .error e => .error e
        | .ok titulo =>
          match (lookupLast fields "prestado_a").getD .null with
          | .null => .ok ⟨libroId, titulo, none⟩
          | v =>
            match normalizarAprendiz (pyStr v) with
            | .error e => .error e
            | .ok prestadoA => .ok ⟨libroId, titulo, some prestadoA⟩
  | _ => .error (.typeError "Cada libro debe ser un diccionario.")

/-- `_validar_libro_dict` on an in-memory book. -/
def validarLibro (l : Libro) : Except PyErr Libro :=
  validarLibroJson (libroToJson l)

/-- `cargar_biblioteca`: missing/corrupt/non-list content yields `[]`;
elements validated individually, invalid ones silently dropped. -/
def cargarBiblioteca (fs : FileState) : List Libro :=
  match fs with
  | .missing => []
  | .corrupt => []
  | .jsonFile j =>
    match j with
    | .arr items => cargarLista validarLibroJson items
    | _ => []

/-- `guardar_biblioteca` as a state transformer: validate every record
(first failure raises and nothing is written), then overwrite the file. -/
def guardarBibliotecaSt (biblioteca : List Libro) (fs : FileState) :
    Except PyErr Unit × FileState :=
  match normalizarLista validarLibro biblioteca with
  | .error e => (.error e, fs)
  | .ok normalizados =>
    (.ok (), .jsonFile (.arr (normalizados.map libroToJson)))

/-- `_buscar_indice` (library): index of the book whose id matches
case-insensitively, after normalizing the searched id. -/
def buscarIndiceLibro (biblioteca : List Libro) (libroId : String) :
    Except PyErr (Option ℕ) :=
  match normalizarId libroId with
  | .error e => .error e
  | .ok limpio =>
    let objetivo := lowerStr limpio
    .ok (biblioteca.findIdx? (fun libro => lowerStr libro.libroId == objetivo))

/-- `prestar_libro` as a state transformer: locate the book (KeyError when
absent), normalize the borrower's name, reject an already-borrowed book,
then set the borrower and persist. -/
def prestarLibroSt (biblioteca : List Libro) (libroId : String)
    (nombreAprendiz : String) (fs : FileState) :
    Except PyErr Libro × List Libro × FileState :=
  match buscarIndiceLibro biblioteca libroId with
  | .error e => (.error e, biblioteca, fs)
  | .ok none =>
    (.error (.keyError ("No existe el libro con id: " ++ libroId)),
     biblioteca, fs)
  | .ok (some indice) =>
    match biblioteca.get? indice with
    | none => (.error (.indexError "list index out of range"), biblioteca, fs)
    | some libro =>
      match normalizarAprendiz nombreAprendiz with
      | .error e => (.error e, biblioteca, fs)
      | .ok aprendiz =>
        match libro.prestadoA with
        | some _ =>
          (.error (.valueError "El libro ya está prestado."), biblioteca, fs)
        | none =>
          let libroNew : Libro := { libro with prestadoA := some aprendiz }
          let bib := biblioteca.set indice libroNew
          match guardarBibliotecaSt bib fs with
          | (.error e, fsNew) => (.error e, bib, fsNew)
          | (.ok _, fsNew) => (.ok libroNew, bib, fsNew)

/-- `devolver_libro` as a state transformer: locate the book (KeyError when
absent), reject a book not on loan, then clear the borrower and persist. -/
def devolverLibroSt (biblioteca : List Libro) (libroId : String)
    (fs : FileState) : Except PyErr Libro × List Libro × FileState :=
  match buscarIndiceLibro biblioteca libroId with
  | .error e => (.error e, biblioteca, fs)
  | .ok none =>
    (.error (.keyError ("No existe el libro con id: " ++ libroId)),
     biblioteca, fs)
  | .ok (some indice) =>
    match biblioteca.get? indice with
    | none => (.error (.indexError "list index out of range"), biblioteca, fs)
    | some libro =>
      match libro.prestadoA with
      | none =>
        (.error (.valueError "El libro no estaba prestado."), biblioteca, fs)
      | some _ =>
        let libroNew : Libro := { libro with prestadoA := none }
        let bib := biblioteca.set indice libroNew
        match guardarBibliotecaSt bib fs with
        | (.error e, fsNew) => (.error e, bib, fsNew)
        | (.ok _, fsNew) => (.ok libroNew, bib, fsNew)

/-!  ## Generic validator (bloque1/ejercicio_4_validador_generico.py) -/

/-- `aplicar_validador`: the comprehension
`[elemento for elemento in datos if bool(validador(elemento))]`.  The
runtime `isinstance`/`callable` guards are enforced by the types here. -/
def aplicarValidador {T : Type} (datos : List T) (validador : T → Bool) :
    List T :=
  datos.filter (fun elemento => validador elemento)

/-!  ## CSV analyzer (bloque3/ejercicio_12_analizador_csv.py) -/

/-- Parsed CSV content as `csv.DictReader` sees it: the header row and the
remaining rows as raw cell lists. -/
structure Csv where
  fieldnames : List String
  rows : List (List String)

/-- The analyzer's result dict with keys promedio/max/min. -/
structure Resumen where
  promedio : ℚ
  maximo : ℚ
  minimo : ℚ
deriving DecidableEq, Repr

/-- `fila.get(columna)` where `fila` is the `DictReader` dict of a row:
the dict zips the (raw, untrimmed) fieldnames with the row's cells, a
duplicated fieldname keeps the later cell, and a short row leaves trailing
fields at `None` (the reader's `restval`). -/
def filaGet (fieldnames : List String) (fila : List String)
    (columna : String) : Option String :=
  let padded := fila.map some ++
    List.replicate (fieldnames.length - fila.length) none
  (((fieldnames.zip padded).reverse).lookup columna).getD none

/-- `_to_float_or_none`: `None` stays `None`; otherwise strip, turn a comma
decimal separator into a dot, and parse tolerantly (`None` on failure). -/
def toFloatOrNone (texto : Option String) : Option ℚ :=
  match texto with
  | none => none
  | some t =>
    let valor := String.mk ((((t.toList.dropWhile Char.isWhitespace).reverse.dropWhile
      Char.isWhitespace).reverse).map (fun c => if c = ',' then '.' else c))
    if valor = "" then none else parseFloat? valor

/-- Python `round(x, 2)`.  (On floats Python rounds half-to-even in binary;
no claim exercises a tie, so the integer rounding used here agrees on every
input that matters.) -/
def round2 (q : ℚ) : ℚ :=
  ((round (q * 100) : ℤ) : ℚ) / 100

/-- The missing-column `KeyError` message of `analizar_csv`. -/
def mensajeColumna (columna : String) (campos : List String) : String :=
  "La columna " ++ columna ++ " no existe. Columnas disponibles: " ++
    String.intercalate ", " campos

/-- `analizar_csv` on parsed CSV content (`none` models a file with no
header row): check the requested column against the stripped header names,
convert the column's cells tolerantly, drop the non-numeric ones, raise
when no numeric cell remains, and return the rounded mean/max/min. -/
def analizarCsv (contenido : Option Csv) (columna : String) :
    Except PyErr Resumen :=
  match contenido with
  | none => .error (.valueError "El CSV no contiene encabezados.")
  | some t =>
    let campos := t.fieldnames.map stripStr
    if !(campos.contains columna) then
      .error (.keyError (mensajeColumna columna campos))
    else
      let valoresRaw := t.rows.map (fun fila => filaGet t.fieldnames fila columna)
      let valoresNum := valoresRaw.filterMap toFloatOrNone
      match valoresNum with
      | [] =>
        .error (.valueError
          ("No hay datos numéricos válidos en la columna " ++ columna ++ "."))
      | v :: vs =>
        .ok ⟨round2 ((v :: vs).sum / ((v :: vs).length : ℚ)),
             round2 (vs.foldl max v), round2 (vs.foldl min v)⟩

/-!  ## Lemmas: idempotence of whitespace collapsing -/

/-- A character list containing no whitespace. -/
def NoWs (w : List Char) : Prop := ∀ c ∈ w, c.isWhitespace = false

theorem noWs_nil : NoWs [] := by intro c hc; cases hc

theorem noWs_cons {c : Char} {w : List Char} (hc : c.isWhitespace = false)
    (hw : NoWs w) : NoWs (c :: w) := by
  intro d hd
  rcases List.mem_cons.mp hd with h | h
  · rwa [h]
  · exact hw d h

theorem noWs_reverse {w : List Char} (hw : NoWs w) : NoWs w.reverse := by
  intro c hc
  exact hw c (List.mem_reverse.mp hc)

/-- Every word produced by `wordsAux` is non-empty and whitespace-free,
provided the accumulated partial word is whitespace-free. -/
theorem wordsAux_all (cs : List Char) :
    ∀ cur, NoWs cur → ∀ w ∈ wordsAux cs cur, w ≠ [] ∧ NoWs w := by
  induction cs with
  | nil =>
    intro cur hcur w hw
    by_cases h : cur = []
    · simp [wordsAux, h] at hw
    · simp [wordsAux, h] at hw
      subst hw
      exact ⟨by simp [h], noWs_reverse hcur⟩
  | cons c rest ih =>
    intro cur hcur w hw
    by_cases hc : c.isWhitespace
    · by_cases h : cur = []
      · rw [wordsAux, if_pos hc, if_pos h] at hw
        exact ih [] noWs_nil w hw
      · rw [wordsAux, if_pos hc, if_neg h] at hw
        rcases List.mem_cons.mp hw with h1 | h1
        · subst h1
          exact ⟨by simp [h], noWs_reverse hcur⟩
        · exact ih [] noWs_nil w h1
    · rw [wordsAux, if_neg hc] at hw
      exact ih (c :: cur)
        (noWs_cons (Bool.not_eq_true _ ▸ eq_false_of_ne_true hc) hcur) w hw

/-- Every word of `words cs` is non-empty and whitespace-free. -/
theorem words_all (cs : List Char) :
    ∀ w ∈ words cs, w ≠ [] ∧ NoWs w :=
  wordsAux_all cs [] noWs_nil

/-- Feeding a whitespace-free word into `wordsAux` accumulates it. -/
theorem wordsAux_append_word (w : List Char) (hw : NoWs w) :
    ∀ cs cur, wordsAux (w ++ cs) cur = wordsAux cs (w.reverse ++ cur) := by
  induction w with
  | nil => intro cs cur; simp
  | cons c w ih =>
    intro cs cur
    have hc : c.isWhitespace = false := hw c (List.mem_cons_self c w)
    have hw' : NoWs w := fun d hd => hw d (List.mem_cons_of_mem c hd)
    calc wordsAux ((c :: w) ++ cs) cur
        = wordsAux (w ++ cs) (c :: cur) := by
          rw [List.cons_append, wordsAux, if_neg (by simp [hc])]
      _ = wordsAux cs (w.reverse ++ (c :: cur)) := ih hw' cs (c :: cur)
      _ = wordsAux cs ((c :: w).reverse ++ cur) := by simp

/-- Splitting undoes joining: `words (unwords ws) = ws` whenever every word
is non-empty and whitespace-free. -/
theorem words_unwords :
    ∀ ws, (∀ w ∈ ws, w ≠ [] ∧ NoWs w) → words (unwords ws) = ws := by
  intro ws
  induction ws using unwords.induct with
  | case1 =>
    intro _
    rfl
  | case2 w =>
    intro h
    obtain ⟨hne, hnw⟩ := h w (List.mem_singleton.mpr rfl)
    show wordsAux (unwords [w]) [] = [w]
    have : unwords [w] = w ++ [] := by simp [unwords]
    rw [this, wordsAux_append_word w hnw [] []]
    simp [wordsAux, hne]
  | case3 w v rest ih =>
    intro h
    obtain ⟨hne, hnw⟩ := h w (List.mem_cons_self _ _)
    have ih' := ih (fun u hu => h u (List.mem_cons_of_mem w hu))
    show wordsAux (unwords (w :: v :: rest)) [] = w :: v :: rest
    rw [show unwords (w :: v :: rest) = w ++ ' ' :: unwords (v :: rest) from rfl,
      wordsAux_append_word w hnw _ []]
    rw [wordsAux, if_pos (by decide)]
    rw [if_neg (by simp [hne])]
    simp only [List.append_nil, List.reverse_reverse]
    exact congrArg (w :: ·) ih'

theorem toList_mk (cs : List Char) : (String.mk cs).toList = cs := rfl

/-- Collapsing whitespace is idempotent. -/
theorem collapse_collapse (s : String) : collapse (collapse s) = collapse s := by
  show String.mk (unwords (words (String.mk (unwords (words s.toList))).toList)) =
    String.mk (unwords (words s.toList))
  rw [toList_mk, words_unwords (words s.toList) (words_all s.toList)]

/-- What a successful `_normalizar_nombre` returns: the collapsed, non-empty
name. -/
theorem normalizarNombre_ok {s t : String} (h : normalizarNombre s = .ok t) :
    t = collapse s ∧ t ≠ "" := by
  unfold normalizarNombre at h
  by_cases hc : collapse s = ""
  · simp [hc] at h
  · simp [hc] at h
    exact ⟨h.symm, h ▸ hc⟩

/-- A collapsed non-empty name normalizes to itself. -/
theorem normalizarNombre_self {n : String} (h1 : collapse n = n)
    (h2 : n ≠ "") : normalizarNombre n = .ok n := by
  unfold normalizarNombre
  simp [h1, h2]

/-- `_normalizar_nombre` is idempotent on its own output. -/
theorem normalizarNombre_idem {s t : String} (h : normalizarNombre s = .ok t) :
    normalizarNombre t = .ok t := by
  obtain ⟨h1, h2⟩ := normalizarNombre_ok h
  exact normalizarNombre_self (by rw [h1, collapse_collapse]) h2

/-- What a successful `_normalizar_id` returns. -/
theorem normalizarId_ok {s t : String} (h : normalizarId s = .ok t) :
    t = collapse s ∧ t ≠ "" := by
  unfold normalizarId at h
  by_cases hc : collapse s = ""
  · simp [hc] at h
  · simp [hc] at h
    exact ⟨h.symm, h ▸ hc⟩

/-- A collapsed non-empty id normalizes to itself. -/
theorem normalizarId_self {n : String} (h1 : collapse n = n) (h2 : n ≠ "") :
    normalizarId n = .ok n := by
  unfold normalizarId
  simp [h1, h2]

/-- What a successful `_normalizar_titulo` returns. -/
theorem normalizarTitulo_ok {s t : String} (h : normalizarTitulo s = .ok t) :
    t = collapse s ∧ t ≠ "" := by
  unfold normalizarTitulo at h
  by_cases hc : collapse s = ""
  · simp [hc] at h
  · simp [hc] at h
    exact ⟨h.symm, h ▸ hc⟩

/-- What a successful `_normalizar_nombre` (library variant) returns. -/
theorem normalizarAprendiz_ok {s t : String} (h : normalizarAprendiz s = .ok t) :
    t = collapse s ∧ t ≠ "" := by
  unfold normalizarAprendiz at h
  by_cases hc : collapse s = ""
  · simp [hc] at h
  · simp [hc] at h
    exact ⟨h.symm, h ▸ hc⟩

/-!  ## Lemmas: validated inventory records -/

/-- The Record invariant of the spec for an inventory record: whitespace-
normalized non-empty name, price ≥ 0, stock ≥ 0. -/
def ValidProducto (p : Producto) : Prop :=
  collapse p.nombre = p.nombre ∧ p.nombre ≠ "" ∧ 0 ≤ p.precio ∧ 0 ≤ p.stock

instance (p : Producto) : Decidable (ValidProducto p) := by
  unfold ValidProducto; infer_instance

theorem ratTrunc_intCast (z : ℤ) : ratTrunc (z : ℚ) = z := by
  unfold ratTrunc
  by_cases h : (0 : ℚ) ≤ (z : ℚ) <;> simp [h]

/-- A record satisfying the invariant validates to itself. -/
theorem validarProducto_of_valid {p : Producto} (h : ValidProducto p) :
    validarProducto p = .ok p := by
  obtain ⟨h1, h2, h3, h4⟩ := h
  cases p with
  | mk nombre precio stock =>
    simp only at h1 h2 h3 h4
    rw [validarProducto, productoToJson]
    simp only [validarProductoJson, lookupLast, List.reverse_cons,
      List.reverse_nil, List.nil_append, List.cons_append, List.lookup]
    simp [pyStr, pyFloat, pyInt, ratTrunc_intCast,
      normalizarNombre_self h1 h2, not_lt.mpr h3, not_lt.mpr h4]

/-- Whatever `_validar_producto_dict` accepts satisfies the invariant. -/
theorem valid_of_validarProductoJson {j : Json} {p : Producto}
    (h : validarProductoJson j = .ok p) : ValidProducto p := by
  cases j with
  | obj fields =>
    rw [validarProductoJson] at h
    split at h
    · cases h
    · split at h
      · cases h
      · split at h
        · cases h
        · split at h
          · cases h
          · rename_i nombre hn
            split at h
            · cases h
            · rename_i precio hp
              split at h
              · cases h
              · rename_i stock hs
                split at h
                · cases h
                · split at h
                  · cases h
                  · rename_i hprecio hstock
                    cases h
                    obtain ⟨h1, h2⟩ := normalizarNombre_ok hn
                    exact ⟨by rw [h1, collapse_collapse], h2,
                      le_of_not_lt hprecio, le_of_not_lt hstock⟩
  | null => cases h
  | bool b => cases h
  | num q => cases h
  | str s => cases h
  | arr items => cases h

/-- The invariant characterizes exactly the records that validate to
themselves. -/
theorem valid_iff_validarProducto (p : Producto) :
    ValidProducto p ↔ validarProducto p = .ok p := by
  constructor
  · exact validarProducto_of_valid
  · intro h
    exact valid_of_validarProductoJson h

/-!  ## Lemmas: the load and save loops -/

/-- The drop-on-failure load loop keeps exactly the valid elements, in
order. -/
theorem cargarLista_eq_filterMap {α : Type} (f : Json → Except PyErr α)
    (l : List Json) :
    cargarLista f l = l.filterMap (fun j => (f j).toOption) := by
  induction l with
  | nil => rfl
  | cons x xs ih =>
    rw [cargarLista]
    cases hfx : f x <;> simp [List.filterMap_cons, hfx, Except.toOption, ih]

/-- Every element the load loop produces comes from a successfully
validated input element. -/
theorem mem_cargarLista {α : Type} {f : Json → Except PyErr α}
    {l : List Json} {p : α} (h : p ∈ cargarLista f l) :
    ∃ j ∈ l, f j = .ok p := by
  induction l with
  | nil => cases h
  | cons x xs ih =>
    rw [cargarLista] at h
    cases hfx : f x with
    | ok y =>
      rw [hfx] at h
      rcases List.mem_cons.mp h with h1 | h1
      · exact ⟨x, List.mem_cons_self _ _, by rw [hfx, h1]⟩
      · obtain ⟨j, hj, hfj⟩ := ih h1
        exact ⟨j, List.mem_cons_of_mem _ hj, hfj⟩
    | error e =>
      rw [hfx] at h
      obtain ⟨j, hj, hfj⟩ := ih h
      exact ⟨j, List.mem_cons_of_mem _ hj, hfj⟩

/-- The save-side validation succeeds and is the identity on a list of
already-normalized elements. -/
theorem normalizarLista_ok_self {α : Type} {f : α → Except PyErr α}
    {l : List α} (h : ∀ x ∈ l, f x = .ok x) :
    normalizarLista f l = .ok l := by
  induction l with
  | nil => rfl
  | cons x xs ih =>
    rw [normalizarLista, h x (List.mem_cons_self _ _),
      ih (fun y hy => h y (List.mem_cons_of_mem _ hy))]

/-- Every element the save-side validation outputs is the successful
validation of some input element. -/
theorem normalizarLista_mem_ok {α β : Type} {f : α → Except PyErr β}
    {l : List α} {ns : List β} (h : normalizarLista f l = .ok ns) :
    ∀ n ∈ ns, ∃ x ∈ l, f x = .ok n := by
  induction l generalizing ns with
  | nil =>
    rw [normalizarLista] at h
    cases h
    intro n hn
    cases hn
  | cons x xs ih =>
    rw [normalizarLista] at h
    cases hfx : f x with
    | error e => rw [hfx] at h; cases h
    | ok y =>
      rw [hfx] at h
      cases hrest : normalizarLista f xs with
      | error e => rw [hrest] at h; cases h
      | ok ys =>
        rw [hrest] at h
        cases h
        intro n hn
        rcases List.mem_cons.mp hn with h1 | h1
        · exact ⟨x, List.mem_cons_self _ _, by rw [hfx, h1]⟩
        · obtain ⟨z, hz, hfz⟩ := ih hrest n h1
          exact ⟨z, List.mem_cons_of_mem _ hz, hfz⟩

/-- The save-side validation fails exactly when some element fails to
validate (the first such failure is raised). -/
theorem normalizarLista_fails_iff {α β : Type} (f : α → Except PyErr β)
    (l : List α) :
    okB (normalizarLista f l) = false ↔ ∃ x ∈ l, okB (f x) = false := by
  induction l with
  | nil =>
    constructor
    · intro h
      rw [normalizarLista] at h
      simp [okB] at h
    · rintro ⟨z, hz, _⟩
      cases hz
  | cons x xs ih =>
    constructor
    · intro h
      rw [normalizarLista] at h
      cases hfx : f x with
      | error e => exact ⟨x, List.mem_cons_self _ _, by rw [hfx]; rfl⟩
      | ok y =>
        rw [hfx] at h
        cases hrest : normalizarLista f xs with
        | error e =>
          obtain ⟨z, hz, hfz⟩ := ih.mp (by rw [hrest]; rfl)
          exact ⟨z, List.mem_cons_of_mem _ hz, hfz⟩
        | ok ys =>
          rw [hrest] at h
          simp [okB] at h
    · rintro ⟨z, hz, hfz⟩
      rw [normalizarLista]
      rcases List.mem_cons.mp hz with h1 | h1
      · subst h1
        cases hfz2 : f z with
        | error e => rfl
        | ok y =>
          rw [hfz2] at hfz
          simp [okB] at hfz
      · cases hfx : f x with
        | error e => rfl
        | ok y =>
          have hxs : okB (normalizarLista f xs) = false := ih.mpr ⟨z, h1, hfz⟩
          cases hrest : normalizarLista f xs with
          | error e => rfl
          | ok ys =>
            rw [hrest] at hxs
            simp [okB] at hxs

/-- The load loop applied to the serialization of already-valid records
recovers them unchanged. -/
theorem cargarLista_of_ok {α β : Type} {f : Json → Except PyErr β}
    {g : α → Json} {ns : List α} {h : α → β}
    (hok : ∀ n ∈ ns, f (g n) = .ok (h n)) :
    cargarLista f (ns.map g) = ns.map h := by
  induction ns with
  | nil => rfl
  | cons n ns ih =>
    rw [List.map_cons, cargarLista, hok n (List.mem_cons_self _ _),
      ih (fun m hm => hok m (List.mem_cons_of_mem _ hm)), List.map_cons]

/-!  ## The claims -/

/-- C1: `aplicar_validador` returns the subsequence of its input containing
exactly the elements satisfying the predicate, preserving relative order
(it is a sublist, every kept element satisfies the predicate, every
satisfying element is kept); filtering with an always-true predicate
returns the list itself, and with an always-false predicate the empty
list.  Being a pure Lean function, it has no side effects. -/
theorem claim_C1 {α : Type} (S : List α) (P : α → Bool) :
    (aplicarValidador S P).Sublist S ∧
    (∀ x ∈ aplicarValidador S P, P x = true) ∧
    (∀ x ∈ S, P x = true → x ∈ aplicarValidador S P) ∧
    aplicarValidador S (fun _ => true) = S ∧
    aplicarValidador S (fun _ => false) = [] := by
  refine ⟨List.filter_sublist S, ?_, ?_, List.filter_true S,
    List.filter_false S⟩
  · intro x hx
    exact (List.mem_filter.mp hx).2
  · intro x hxS hPx
    exact List.mem_filter.mpr ⟨hxS, hPx⟩

/-- Witness for C1 at a concrete list and predicate. -/
theorem claim_C1_witness :
    (11 : ℤ) ∈ aplicarValidador [3, 11, 9, 25] (fun n : ℤ => decide (10 < n)) ∧
    aplicarValidador [3, 11, 9, 25] (fun n : ℤ => decide (10 < n)) = [11, 25] :=
  ⟨(claim_C1 [3, 11, 9, 25] (fun n : ℤ => decide (10 < n))).2.2.1 11
    (by decide) (by decide), by decide⟩

/-- C6: both loaders return `[]` on a missing backing file and on a file
whose contents fail to parse as JSON (no error surfaced); on a parsed JSON
array every element is normalized independently, the failing ones are
silently dropped and the valid ones are kept in their original order —
exactly a `filterMap` of the element validator. -/
theorem claim_C6 :
    cargarInventario .missing = [] ∧
    cargarInventario .corrupt = [] ∧
    (∀ items, cargarInventario (.jsonFile (.arr items)) =
      items.filterMap (fun j => (validarProductoJson j).toOption)) ∧
    cargarBiblioteca .missing = [] ∧
    cargarBiblioteca .corrupt = [] ∧
    (∀ items, cargarBiblioteca (.jsonFile (.arr items)) =
      items.filterMap (fun j => (validarLibroJson j).toOption)) :=
  ⟨rfl, rfl, fun items => cargarLista_eq_filterMap validarProductoJson items,
   rfl, rfl, fun items => cargarLista_eq_filterMap validarLibroJson items⟩

/-- C10: when the backing file holds valid JSON whose top-level value is
not an array (an object, a number, …), both loaders return `[]` with no
error surfaced, exactly as for a missing or unparsable file. -/
theorem claim_C10 (j : Json) (h : ∀ items, j ≠ .arr items) :
    cargarInventario (.jsonFile j) = [] ∧
    cargarBiblioteca (.jsonFile j) = [] := by
  cases j with
  | arr items => exact absurd rfl (h items)
  | null => exact ⟨rfl, rfl⟩
  | bool b => exact ⟨rfl, rfl⟩
  | num q => exact ⟨rfl, rfl⟩
  | str s => exact ⟨rfl, rfl⟩
  | obj fields => exact ⟨rfl, rfl⟩

/-- Witness for C10 at a JSON object and a bare number. -/
theorem claim_C10_witness :
    (cargarInventario (.jsonFile (.obj [("a", .num 1)])) = [] ∧
      cargarBiblioteca (.jsonFile (.obj [("a", .num 1)])) = []) ∧
    (cargarInventario (.jsonFile (.num 5)) = [] ∧
      cargarBiblioteca (.jsonFile (.num 5)) = []) :=
  ⟨claim_C10 (.obj [("a", .num 1)]) (fun _ h => Json.noConfusion h),
   claim_C10 (.num 5) (fun _ h => Json.noConfusion h)⟩

/-- Everything `cargar_inventario` returns satisfies the Record
invariant. -/
theorem cargarInventario_valid (fs : FileState) :
    ∀ p ∈ cargarInventario fs, ValidProducto p := by
  intro p hp
  cases fs with
  | missing => cases hp
  | corrupt => cases hp
  | jsonFile j =>
    cases j with
    | arr items =>
      obtain ⟨j', _, hok⟩ := mem_cargarLista hp
      exact valid_of_validarProductoJson hok
    | null => cases hp
    | bool b => cases hp
    | num q => cases hp
    | str s => cases hp
    | obj fields => cases hp

/-- C7: save validates every record before writing; the first invalid
record raises (validation fails exactly when some record fails — unlike
load, nothing is silently dropped) and in that case the backing file is
left untouched; when all records validate, the file is overwritten with
the full JSON array of the normalized records.  Both for the inventory
and for the library store. -/
theorem claim_C7 :
    (∀ inv fs e, normalizarLista validarProducto inv = .error e →
      guardarInventarioSt inv fs = (.error e, fs)) ∧
    (∀ inv fs ns, normalizarLista validarProducto inv = .ok ns →
      guardarInventarioSt inv fs =
        (.ok (), .jsonFile (.arr (ns.map productoToJson)))) ∧
    (∀ inv, okB (normalizarLista validarProducto inv) = false ↔
      ∃ p ∈ inv, okB (validarProducto p) = false) ∧
    (∀ bib fs e, normalizarLista validarLibro bib = .error e →
      guardarBibliotecaSt bib fs = (.error e, fs)) ∧
    (∀ bib fs ns, normalizarLista validarLibro bib = .ok ns →
      guardarBibliotecaSt bib fs =
        (.ok (), .jsonFile (.arr (ns.map libroToJson)))) ∧
    (∀ bib, okB (normalizarLista validarLibro bib) = false ↔
      ∃ l ∈ bib, okB (validarLibro l) = false) := by
  refine ⟨?_, ?_, ?_, ?_, ?_, ?_⟩
  · intro inv fs e h
    rw [guardarInventarioSt, h]
  · intro inv fs ns h
    rw [guardarInventarioSt, h]
  · intro inv
    exact normalizarLista_fails_iff validarProducto inv
  · intro bib fs e h
    rw [guardarBibliotecaSt, h]
  · intro bib fs ns h
    rw [guardarBibliotecaSt, h]
  · intro bib
    exact normalizarLista_fails_iff validarLibro bib

/-- Witness for C7: saving a store holding a record with an empty name
raises the empty-name `ValueError` and leaves the backing file exactly as
it was. -/
theorem claim_C7_witness :
    normalizarLista validarProducto [(⟨"", 1, 1⟩ : Producto)] =
      .error (.valueError "El nombre no puede estar vacío.") ∧
    guardarInventarioSt [⟨"", 1, 1⟩] (.jsonFile (.num 7)) =
      (.error (.valueError "El nombre no puede estar vacío."),
       .jsonFile (.num 7)) :=
  ⟨rfl, claim_C7.1 [⟨"", 1, 1⟩] (.jsonFile (.num 7))
    (.valueError "El nombre no puede estar vacío.") rfl⟩

/-- C9 fails as stated: on a file whose array holds a record that does not
validate (here a negative price), load drops the record, so save-after-load
writes an empty array — the parsed content is not semantically identical to
what was in the file. -/
theorem claim_C9_counterexample :
    cargarInventario (.jsonFile (.arr [.obj [("nombre", .str "a"),
      ("precio", .num (-1)), ("stock", .num 1)]])) = [] ∧
    guardarInventarioSt (cargarInventario (.jsonFile (.arr [.obj
      [("nombre", .str "a"), ("precio", .num (-1)), ("stock", .num 1)]])))
      (.jsonFile (.arr [.obj [("nombre", .str "a"), ("precio", .num (-1)),
        ("stock", .num 1)]])) =
      (.ok (), .jsonFile (.arr [])) ∧
    FileState.jsonFile (.arr []) ≠
      .jsonFile (.arr [.obj [("nombre", .str "a"), ("precio", .num (-1)),
        ("stock", .num 1)]]) := by
  refine ⟨rfl, rfl, ?_⟩
  intro h
  simp at h

/-- C9 (amended): save-after-load always succeeds and writes exactly the
valid records of the file, normalized, in order; on any file state that a
successful save produced, the round trip reproduces the identical parsed
content. -/
theorem claim_C9 :
    (∀ fs, guardarInventarioSt (cargarInventario fs) fs =
      (.ok (), .jsonFile (.arr ((cargarInventario fs).map productoToJson)))) ∧
    (∀ inv fs outFs, guardarInventarioSt inv fs = (.ok (), outFs) →
      guardarInventarioSt (cargarInventario outFs) outFs = (.ok (), outFs)) := by
  constructor
  · intro fs
    rw [guardarInventarioSt, normalizarLista_ok_self
      (fun p hp => validarProducto_of_valid (cargarInventario_valid fs p hp))]
  · intro inv fs outFs h
    rw [guardarInventarioSt] at h
    cases hnl : normalizarLista validarProducto inv with
    | error e =>
      rw [hnl] at h
      cases h
    | ok ns =>
      rw [hnl] at h
      have houtFs : FileState.jsonFile (.arr (ns.map productoToJson)) = outFs :=
        congrArg Prod.snd h
      have hns : ∀ n ∈ ns, validarProducto n = .ok n := by
        intro n hn
        obtain ⟨x, _, hfx⟩ := normalizarLista_mem_ok hnl n hn
        exact validarProducto_of_valid (valid_of_validarProductoJson hfx)
      have hcargar : cargarInventario outFs = ns := by
        rw [← houtFs]
        show cargarLista validarProductoJson (ns.map productoToJson) = ns
        have := @cargarLista_of_ok Producto Producto validarProductoJson
          productoToJson ns id (fun n hn => by simpa using hns n hn)
        simpa using this
      rw [hcargar, guardarInventarioSt, normalizarLista_ok_self hns]
      exact congrArg (fun z => ((Except.ok () : Except PyErr Unit), z)) houtFs

/-- Witness for C9 at a concrete save image: saving an empty store and
round-tripping reproduces the empty-array file. -/
theorem claim_C9_witness :
    guardarInventarioSt [] .missing = (.ok (), .jsonFile (.arr [])) ∧
    guardarInventarioSt (cargarInventario (.jsonFile (.arr [])))
      (.jsonFile (.arr [])) = (.ok (), .jsonFile (.arr [])) :=
  ⟨rfl, claim_C9.2 [] .missing (.jsonFile (.arr [])) rfl⟩

/-- C4: `vender_producto` raises `ValueError` (InvalidArgument) when the
quantity is ≤ 0, `KeyError` (NotFound) when the identifier is absent,
`ValueError` (InsufficientResource) when the quantity exceeds the current
stock, and otherwise decrements the stock by the quantity; at the boundary,
selling exactly the remaining stock succeeds, persists, and leaves stock 0,
while selling stock+1 raises the insufficient-stock error and leaves the
file untouched. -/
theorem claim_C4 :
    (∀ inv nombre cantidad fs, cantidad ≤ 0 →
      venderProductoSt inv nombre cantidad fs =
        (.error (.valueError "La cantidad a vender debe ser mayor que 0."),
         inv, fs)) ∧
    (∀ inv nombre cantidad fs, 0 < cantidad →
      buscarIndice inv nombre = .ok none →
      venderProductoSt inv nombre cantidad fs =
        (.error (.keyError ("No existe el producto: " ++ nombre)), inv, fs)) ∧
    (∀ inv nombre cantidad fs i p, 0 < cantidad →
      buscarIndice inv nombre = .ok (some i) → inv.get? i = some p →
      p.stock < cantidad →
      venderProductoSt inv nombre cantidad fs =
        (.error (.valueError "Stock insuficiente para la venta."), inv, fs)) ∧
    (∀ inv nombre cantidad fs i p, 0 < cantidad →
      buscarIndice inv nombre = .ok (some i) → inv.get? i = some p →
      cantidad ≤ p.stock →
      (venderProductoSt inv nombre cantidad fs).2.1 =
        inv.set i ⟨p.nombre, p.precio, p.stock - cantidad⟩) ∧
    (venderProductoSt [⟨"A", 1, 3⟩] "A" 3 .missing =
      (.ok ⟨"A", 1, 0⟩, [⟨"A", 1, 0⟩],
        .jsonFile (.arr [productoToJson ⟨"A", 1, 0⟩])) ∧
     venderProductoSt [⟨"A", 1, 3⟩] "A" 4 .missing =
      (.error (.valueError "Stock insuficiente para la venta."),
        [⟨"A", 1, 3⟩], .missing)) := by
  refine ⟨?_, ?_, ?_, ?_, rfl, rfl⟩
  · intro inv nombre cantidad fs h
    simp [venderProductoSt, h]
  · intro inv nombre cantidad fs h0 hbuscar
    simp [venderProductoSt, hbuscar, not_le.mpr h0]
  · intro inv nombre cantidad fs i p h0 hbuscar hget hlt
    rw [List.get?_eq_getElem?] at hget
    simp [venderProductoSt, hbuscar, hget, hlt, not_le.mpr h0]
  · intro inv nombre cantidad fs i p h0 hbuscar hget hle
    rw [List.get?_eq_getElem?] at hget
    simp only [venderProductoSt, List.get?_eq_getElem?, hbuscar, hget,
      if_neg (not_le.mpr h0), if_neg (not_lt.mpr hle)]
    cases hg : guardarInventarioSt
        (inv.set i ⟨p.nombre, p.precio, p.stock - cantidad⟩) fs with
    | mk out fsN => cases out <;> simp [hg]

/-- Witness for C4 at concrete inputs for the quantity and not-found
error conjuncts. -/
theorem claim_C4_witness :
    venderProductoSt [(⟨"A", 1, 3⟩ : Producto)] "B" 1 .missing =
      (.error (.keyError "No existe el producto: B"), [⟨"A", 1, 3⟩],
       .missing) ∧
    venderProductoSt [(⟨"A", 1, 3⟩ : Producto)] "A" 0 .missing =
      (.error (.valueError "La cantidad a vender debe ser mayor que 0."),
       [⟨"A", 1, 3⟩], .missing) :=
  ⟨claim_C4.2.1 [⟨"A", 1, 3⟩] "B" 1 .missing (by decide) rfl,
   claim_C4.1 [⟨"A", 1, 3⟩] "A" 0 .missing (by decide)⟩

/-- C5: `agregar_producto` looks the name up case-insensitively; with no
match it appends the new record, with a match it overwrites the price and
adds the given stock to the existing stock; starting from an empty store,
adding "Shirt" (price 50000, stock 5) and then "shirt" (price 55000,
stock 1) leaves exactly one record, with price 55000 and stock 6 (and the
first-written casing). -/
theorem claim_C5 :
    (∀ inv nombre precio stock fs n, normalizarNombre nombre = .ok n →
      ¬ precio < 0 → ¬ stock < 0 →
      inv.findIdx? (fun p => lowerStr p.nombre == lowerStr n) = none →
      (agregarProductoSt inv nombre precio stock fs).2.1 =
        inv ++ [⟨n, precio, stock⟩]) ∧
    (∀ inv nombre precio stock fs n i p, normalizarNombre nombre = .ok n →
      ¬ precio < 0 → ¬ stock < 0 →
      inv.findIdx? (fun q => lowerStr q.nombre == lowerStr n) = some i →
      inv.get? i = some p →
      (agregarProductoSt inv nombre precio stock fs).2.1 =
        inv.set i ⟨p.nombre, precio, p.stock + stock⟩) ∧
    (agregarProductoSt (agregarProductoSt [] "Shirt" 50000 5 .missing).2.1
        "shirt" 55000 1 (agregarProductoSt [] "Shirt" 50000 5 .missing).2.2).2.1 =
      [⟨"Shirt", 55000, 6⟩] := by
  refine ⟨?_, ?_, by decide⟩
  · intro inv nombre precio stock fs n hn hp hs hfind
    have hb : buscarIndice inv n = .ok none := by
      rw [buscarIndice, normalizarNombre_idem hn]
      simpa using hfind
    simp only [agregarProductoSt, hn, if_neg hp, if_neg hs, hb]
    cases hg : guardarInventarioSt (inv ++ [⟨n, precio, stock⟩]) fs with
    | mk out fsN => cases out <;> simp [hg]
  · intro inv nombre precio stock fs n i p hn hp hs hfind hget
    have hb : buscarIndice inv n = .ok (some i) := by
      rw [buscarIndice, normalizarNombre_idem hn]
      simpa using hfind
    rw [List.get?_eq_getElem?] at hget
    simp only [agregarProductoSt, List.get?_eq_getElem?, hn, if_neg hp,
      if_neg hs, hb, hget]
    cases hg : guardarInventarioSt
        (inv.set i ⟨p.nombre, precio, p.stock + stock⟩) fs with
    | mk out fsN => cases out <;> simp [hg]

/-- Witness for C5 exercising the case-insensitive update branch at
concrete inputs. -/
theorem claim_C5_witness :
    (agregarProductoSt [(⟨"Shirt", 50000, 5⟩ : Producto)] "SHIRT" 55000 1
      .missing).2.1 = [⟨"Shirt", 55000, 6⟩] :=
  claim_C5.2.1 [⟨"Shirt", 50000, 5⟩] "SHIRT" 55000 1 .missing "SHIRT" 0
    ⟨"Shirt", 50000, 5⟩ rfl (by norm_num) (by decide) (by decide) rfl

/-- C3: on the library loan flag, borrow on an available book (borrower
absent) sets the borrower to the given (normalized) name; borrow on an
already-borrowed book raises `ValueError` (InvalidState) and leaves the
store and file untouched, never silently succeeding; return on a borrowed
book resets the borrower to absent; return on a book not on loan raises
`ValueError` (InvalidState); the id lookup is case-insensitive, so after
borrowing "a1" the id "A1" addresses the same record (Scenario B). -/
theorem claim_C3 :
    (∀ bib id aprendiz fs i libro a,
      buscarIndiceLibro bib id = .ok (some i) → bib.get? i = some libro →
      libro.prestadoA = none → normalizarAprendiz aprendiz = .ok a →
      (prestarLibroSt bib id aprendiz fs).2.1 =
        bib.set i ⟨libro.libroId, libro.titulo, some a⟩) ∧
    (∀ bib id aprendiz fs i libro b a,
      buscarIndiceLibro bib id = .ok (some i) → bib.get? i = some libro →
      libro.prestadoA = some b → normalizarAprendiz aprendiz = .ok a →
      prestarLibroSt bib id aprendiz fs =
        (.error (.valueError "El libro ya está prestado."), bib, fs)) ∧
    (∀ bib id fs i libro b,
      buscarIndiceLibro bib id = .ok (some i) → bib.get? i = some libro →
      libro.prestadoA = some b →
      (devolverLibroSt bib id fs).2.1 =
        bib.set i ⟨libro.libroId, libro.titulo, none⟩) ∧
    (∀ bib id fs i libro,
      buscarIndiceLibro bib id = .ok (some i) → bib.get? i = some libro →
      libro.prestadoA = none →
      devolverLibroSt bib id fs =
        (.error (.valueError "El libro no estaba prestado."), bib, fs)) ∧
    ((prestarLibroSt [⟨"A1", "Libro A", none⟩] "a1" "Ana" .missing).1 =
        .ok ⟨"A1", "Libro A", some "Ana"⟩ ∧
      (prestarLibroSt [⟨"A1", "Libro A", none⟩] "a1" "Ana" .missing).2.1 =
        [⟨"A1", "Libro A", some "Ana"⟩] ∧
      (prestarLibroSt [⟨"A1", "Libro A", some "Ana"⟩] "A1" "Luis"
        (prestarLibroSt [⟨"A1", "Libro A", none⟩] "a1" "Ana" .missing).2.2).1 =
        .error (.valueError "El libro ya está prestado.") ∧
      (devolverLibroSt [⟨"A1", "Libro A", some "Ana"⟩] "A1" .missing).1 =
        .ok ⟨"A1", "Libro A", none⟩ ∧
      (devolverLibroSt [⟨"A1", "Libro A", some "Ana"⟩] "A1" .missing).2.1 =
        [⟨"A1", "Libro A", none⟩]) := by
  refine ⟨?_, ?_, ?_, ?_, by decide⟩
  · intro bib id aprendiz fs i libro a hbuscar hget hpre hnorm
    simp only [prestarLibroSt, hbuscar, hget, hnorm, hpre]
    cases hg : guardarBibliotecaSt
        (bib.set i ⟨libro.libroId, libro.titulo, some a⟩) fs with
    | mk out fsN => cases out <;> simp [hg]
  · intro bib id aprendiz fs i libro b a hbuscar hget hpre hnorm
    rw [List.get?_eq_getElem?] at hget
    simp [prestarLibroSt, hbuscar, hget, hnorm, hpre]
  · intro bib id fs i libro b hbuscar hget hpre
    simp only [devolverLibroSt, hbuscar, hget, hpre]
    cases hg : guardarBibliotecaSt
        (bib.set i ⟨libro.libroId, libro.titulo, none⟩) fs with
    | mk out fsN => cases out <;> simp [hg]
  · intro bib id fs i libro hbuscar hget hpre
    rw [List.get?_eq_getElem?] at hget
    simp [devolverLibroSt, hbuscar, hget, hpre]

/-- Witness for C3 at a concrete available book. -/
theorem claim_C3_witness :
    (prestarLibroSt [(⟨"B2", "T", none⟩ : Libro)] "b2" "Eva" .missing).2.1 =
      [⟨"B2", "T", some "Eva"⟩] :=
  claim_C3.1 [⟨"B2", "T", none⟩] "b2" "Eva" .missing 0 ⟨"B2", "T", none⟩
    "Eva" rfl rfl rfl rfl

/-- C8 fails as stated: on a header without the requested column,
`analizar_csv` raises a `KeyError` — the NotFound/lookup kind of the
taxonomy — not a `ValueError`, the realization of `ValidationError`
everywhere else in this code base (empty name, negative price, no numeric
data). -/
theorem claim_C8_counterexample :
    isValueError (analizarCsv (some ⟨["nombre"], [["Ana"]]⟩) "edad") = false ∧
    analizarCsv (some ⟨["nombre"], [["Ana"]]⟩) "edad" =
      .error (.keyError (mensajeColumna "edad" ["nombre"])) :=
  ⟨rfl, rfl⟩

/-- C8 (amended): when the requested column is absent from the (stripped)
header, `analizar_csv` raises a `KeyError` naming the missing column;
otherwise it converts cells tolerating a comma decimal separator, silently
skips non-numeric cells, and returns mean/max/min of the valid cells
rounded to two decimals; the column ["20","x","22.5"] yields mean 21.25,
max 22.5, min 20 (likewise with "22,5"), and a column with zero valid
numeric cells raises `ValueError`. -/
theorem claim_C8 :
    (∀ t columna, (t.fieldnames.map stripStr).contains columna = false →
      analizarCsv (some t) columna =
        .error (.keyError (mensajeColumna columna
          (t.fieldnames.map stripStr)))) ∧
    (∀ t columna, (t.fieldnames.map stripStr).contains columna = true →
      (t.rows.map (fun fila => filaGet t.fieldnames fila columna)).filterMap
        toFloatOrNone = [] →
      analizarCsv (some t) columna =
        .error (.valueError ("No hay datos numéricos válidos en la columna "
          ++ columna ++ "."))) ∧
    analizarCsv (some ⟨["age"], [["20"], ["x"], ["22.5"]]⟩) "age" =
      .ok ⟨21.25, 22.5, 20⟩ ∧
    analizarCsv (some ⟨["age"], [["20"], ["x"], ["22,5"]]⟩) "age" =
      .ok ⟨21.25, 22.5, 20⟩ ∧
    analizarCsv (some ⟨["age"], [["x"]]⟩) "age" =
      .error (.valueError "No hay datos numéricos válidos en la columna age.") := by
  refine ⟨?_, ?_, ?_, ?_, rfl⟩
  · intro t columna h
    simp only [analizarCsv, h]
    simp
  · intro t columna h hempty
    simp only [analizarCsv, h, hempty]
    simp
  · simp [analizarCsv, filaGet, toFloatOrNone, parseFloat?, digitsVal,
      List.lookup, mensajeColumna, stripStr, round2]
    norm_num
  · simp [analizarCsv, filaGet, toFloatOrNone, parseFloat?, digitsVal,
      List.lookup, mensajeColumna, stripStr, round2]
    norm_num

/-- Witness for C8: the missing-column conjunct at a concrete file, and
the zero-valid-cells conjunct at a concrete file. -/
theorem claim_C8_witness :
    analizarCsv (some ⟨["nombre"], [["x"]]⟩) "edad" =
      .error (.keyError (mensajeColumna "edad" ["nombre"])) ∧
    analizarCsv (some ⟨["edad"], [["x"]]⟩) "edad" =
      .error (.valueError
        "No hay datos numéricos válidos en la columna edad.") :=
  ⟨claim_C8.1 ⟨["nombre"], [["x"]]⟩ "edad" rfl,
   claim_C8.2.1 ⟨["edad"], [["x"]]⟩ "edad" rfl rfl⟩

/-- C2: every record held in an inventory store satisfies the Record
invariant (collapsed non-empty name, price ≥ 0, stock ≥ 0): load admits
only records that validate, and neither `agregar_producto` nor
`vender_producto` ever leaves an invalid record in a store whose records
were all valid — whether the call succeeds or raises. -/
theorem claim_C2 :
    (∀ fs, ∀ p ∈ cargarInventario fs, ValidProducto p) ∧
    (∀ inv nombre precio stock fs, (∀ p ∈ inv, ValidProducto p) →
      ∀ q ∈ (agregarProductoSt inv nombre precio stock fs).2.1,
        ValidProducto q) ∧
    (∀ inv nombre cantidad fs, (∀ p ∈ inv, ValidProducto p) →
      ∀ q ∈ (venderProductoSt inv nombre cantidad fs).2.1, ValidProducto q) := by
  refine ⟨cargarInventario_valid, ?_, ?_⟩
  · intro inv nombre precio stock fs hval q hq
    cases hn : normalizarNombre nombre with
    | error e =>
      simp only [agregarProductoSt, hn] at hq
      exact hval q hq
    | ok nombreOk =>
      by_cases hp : precio < 0
      · simp only [agregarProductoSt, hn, if_pos hp] at hq
        exact hval q hq
      · by_cases hs : stock < 0
        · simp only [agregarProductoSt, hn, if_neg hp, if_pos hs] at hq
          exact hval q hq
        · obtain ⟨hcol, hne⟩ := normalizarNombre_ok hn
          cases hb : buscarIndice inv nombreOk with
          | error e =>
            simp only [agregarProductoSt, hn, if_neg hp, if_neg hs, hb] at hq
            exact hval q hq
          | ok oi =>
            cases oi with
            | none =>
              simp only [agregarProductoSt, hn, if_neg hp, if_neg hs, hb] at hq
              have hq' : q ∈ inv ++ [(⟨nombreOk, precio, stock⟩ : Producto)] := by
                cases hg : guardarInventarioSt
                    (inv ++ [⟨nombreOk, precio, stock⟩]) fs with
                | mk out fsN =>
                  cases out <;> simp [hg] at hq <;> simpa using hq
              rcases List.mem_append.mp hq' with h1 | h1
              · exact hval q h1
              · have hq2 : q = ⟨nombreOk, precio, stock⟩ :=
                  List.mem_singleton.mp h1
                subst hq2
                exact ⟨by rw [hcol, collapse_collapse], hcol ▸ hne,
                  not_lt.mp hp, not_lt.mp hs⟩
            | some i =>
              cases hget : inv.get? i with
              | none =>
                simp only [agregarProductoSt, hn, if_neg hp, if_neg hs, hb,
                  hget] at hq
                exact hval q hq
              | some producto =>
                simp only [agregarProductoSt, hn, if_neg hp, if_neg hs, hb,
                  hget] at hq
                have hpv : ValidProducto producto :=
                  hval producto (List.get?_mem hget)
                have hq' : q ∈ inv.set i
                    ⟨producto.nombre, precio, producto.stock + stock⟩ := by
                  cases hg : guardarInventarioSt (inv.set i
                      ⟨producto.nombre, precio, producto.stock + stock⟩) fs with
                  | mk out fsN =>
                    cases out <;> simp [hg] at hq <;> simpa using hq
                rcases List.mem_or_eq_of_mem_set hq' with h1 | h1
                · exact hval q h1
                · subst h1
                  exact ⟨hpv.1, hpv.2.1, not_lt.mp hp,
                    add_nonneg hpv.2.2.2 (not_lt.mp hs)⟩
  · intro inv nombre cantidad fs hval q hq
    by_cases h0 : cantidad ≤ 0
    · simp only [venderProductoSt, if_pos h0] at hq
      exact hval q hq
    · cases hb : buscarIndice inv nombre with
      | error e =>
        simp only [venderProductoSt, if_neg h0, hb] at hq
        exact hval q hq
      | ok oi =>
        cases oi with
        | none =>
          simp only [venderProductoSt, if_neg h0, hb] at hq
          exact hval q hq
        | some i =>
          cases hget : inv.get? i with
          | none =>
            simp only [venderProductoSt, if_neg h0, hb, hget] at hq
            exact hval q hq
          | some producto =>
            simp only [venderProductoSt, if_neg h0, hb, hget] at hq
            have hpv : ValidProducto producto :=
              hval producto (List.get?_mem hget)
            by_cases hlt : producto.stock < cantidad
            · rw [if_pos hlt] at hq
              exact hval q hq
            · rw [if_neg hlt] at hq
              have hq' : q ∈ inv.set i
                  ⟨producto.nombre, producto.precio,
                    producto.stock - cantidad⟩ := by
                cases hg : guardarInventarioSt (inv.set i
                    ⟨producto.nombre, producto.precio,
                      producto.stock - cantidad⟩) fs with
                | mk out fsN =>
                  cases out <;> simp [hg] at hq <;> simpa using hq
              rcases List.mem_or_eq_of_mem_set hq' with h1 | h1
              · exact hval q h1
              · subst h1
                refine ⟨hpv.1, hpv.2.1, hpv.2.2.1, ?_⟩
                show (0 : ℤ) ≤ producto.stock - cantidad
                have := not_lt.mp hlt
                omega

/-- Witness for C2: the invariant conjunct for `agregar_producto` applied
to the empty (vacuously valid) store. -/
theorem claim_C2_witness : ValidProducto ⟨"A", 1, 1⟩ :=
  claim_C2.2.1 [] "A" 1 1 .missing
    (fun p hp => absurd hp (List.not_mem_nil p)) ⟨"A", 1, 1⟩ (by decide)

end Spec2Proof
